import Mathlib

/-!
Verification of the LLM-based search-result evaluation core (`LLMService`).

The TypeScript class is shallowly embedded: strings are `List Char`,
JavaScript numbers used for scores and durations are exact rationals `ℚ`
(the arithmetic of the metric is modelled exactly), integer grades are `ℕ`,
and the external judge model (`generateText`) is an explicit oracle
parameter `List Char → JudgeOutcome` mapping the prompt to either a
response text or a thrown error, each with an elapsed time.
-/

/-- `LLMService.MAX_PASSAGE_CHARS`. -/
def MAX_PASSAGE_CHARS : ℕ := 4000

/-- `LLMService.MAX_TITLE_CHARS`. -/
def MAX_TITLE_CHARS : ℕ := 200

/-- `LLMService.EVAL_DEPTH`. -/
def EVAL_DEPTH : ℕ := 10

/-- `LLMService.EU_ALPHA` (0.9). -/
def EU_ALPHA : ℚ := 9 / 10

/-- `gain(rel) = Math.pow(2, rel) - 1`. -/
def gain (rel : ℕ) : ℚ := 2 ^ rel - 1

/-- `expectedUtilityOutOf10(scores, alpha, L)`: the loop accumulates
`num += alpha^i * gain(scores[i] ?? 0)` and `denomP += alpha^i` for
`i = 0 .. L-1`; it returns `denom > 0 ? num / denom * 10 : 0` with
`denom = denomP * gain(3)`.  `scores[i] ?? 0` is `List.getD i 0`. -/
def expectedUtilityOutOf10 (scores : List ℕ) (alpha : ℚ) (L : ℕ) : ℚ :=
  let num := ∑ i ∈ Finset.range L, alpha ^ i * gain (scores.getD i 0)
  let denomP := ∑ i ∈ Finset.range L, alpha ^ i
  let denom := denomP * gain 3
  if 0 < denom then num / denom * 10 else 0

/-- Modelled from the spec's words (for the refinement claim C1):
`EU(scores, α, L) = [ Σ α^i · gain(scores[i] or 0) ] / [ (Σ α^i) · gain(3) ] × 10`
with α = 0.9 and L = 10, exactly as the spec writes it, without the code's
positivity guard. -/
def euSpecFormula (scores : List ℕ) : ℚ :=
  (∑ i ∈ Finset.range EVAL_DEPTH, EU_ALPHA ^ i * gain (scores.getD i 0)) /
    ((∑ i ∈ Finset.range EVAL_DEPTH, EU_ALPHA ^ i) * gain 3) * 10

/-- The numerator accumulated by the `expectedUtilityOutOf10` loop at the
default `alpha` and `L` (a name for a subterm, for stating lemmas). -/
def euNum (scores : List ℕ) : ℚ :=
  ∑ i ∈ Finset.range EVAL_DEPTH, EU_ALPHA ^ i * gain (scores.getD i 0)

/-- The denominator `denomP * gain(3)` of `expectedUtilityOutOf10` at the
default `alpha` and `L`. -/
def euDenom : ℚ := (∑ i ∈ Finset.range EVAL_DEPTH, EU_ALPHA ^ i) * gain 3

-- Score Extractor: model of the JavaScript regex
-- `/##\s*final\s*score\s*:\s*([0-3])\b/i` executed by `extractScore`.

/-- The JavaScript regex `\s` character class (ECMAScript WhiteSpace and
LineTerminator code points). -/
def jsSpace (c : Char) : Bool :=
  decide (c.toNat = 32 ∨ c.toNat = 9 ∨ c.toNat = 10 ∨ c.toNat = 11 ∨ c.toNat = 12 ∨
    c.toNat = 13 ∨ c.toNat = 0xa0 ∨ c.toNat = 0x1680 ∨
    (0x2000 ≤ c.toNat ∧ c.toNat ≤ 0x200a) ∨ c.toNat = 0x2028 ∨ c.toNat = 0x2029 ∨
    c.toNat = 0x202f ∨ c.toNat = 0x205f ∨ c.toNat = 0x3000 ∨ c.toNat = 0xfeff)

/-- The JavaScript regex word-character class `[A-Za-z0-9_]`, used by the
`\b` word-boundary assertion. -/
def isWordChar (c : Char) : Bool :=
  decide ((97 ≤ c.toNat ∧ c.toNat ≤ 122) ∨ (65 ≤ c.toNat ∧ c.toNat ≤ 90) ∨
    (48 ≤ c.toNat ∧ c.toNat ≤ 57) ∨ c.toNat = 95)

/-- ASCII lower-casing on code points, modelling the regex `i` flag. -/
def lowerNat (n : ℕ) : ℕ := if 65 ≤ n ∧ n ≤ 90 then n + 32 else n

/-- Case-insensitive match of one subject character against one (lowercase)
pattern character. -/
def charMatchCI (p c : Char) : Bool := lowerNat c.toNat == p.toNat

/-- Case-insensitive match of a literal pattern against the head of the
subject, returning the remaining subject on success. -/
def matchLitCI : List Char → List Char → Option (List Char)
  | [], cs => some cs
  | _ :: _, [] => none
  | p :: ps, c :: cs => if charMatchCI p c then matchLitCI ps cs else none

/-- `\s*` with maximal munch (the following pattern characters are never
whitespace, so the greedy match never backtracks). -/
def dropSpaces : List Char → List Char
  | [] => []
  | c :: cs => if jsSpace c then dropSpaces cs else c :: cs

/-- The `\b` assertion placed right after the captured digit: it holds at
end of input or when the next character is not a word character. -/
def wordBoundaryAfter : List Char → Bool
  | [] => true
  | c :: _ => !(isWordChar c)

/-- The capture class `([0-3])`; `parseInt` of the captured digit (the
source's subsequent `NaN` and range checks can never fire on it). -/
def digitVal03 (c : Char) : Option ℕ :=
  if 48 ≤ c.toNat ∧ c.toNat ≤ 51 then some (c.toNat - 48) else none

/-- `([0-3])\b`: one digit 0–3 followed by a word boundary. -/
def readDigitWB : List Char → Option ℕ
  | [] => none
  | c :: rest =>
    (digitVal03 c).bind fun d => if wordBoundaryAfter rest then some d else none

/-- One attempt of `##\s*final\s*score\s*:\s*([0-3])\b` (flag `i`)
anchored at the start of the subject. -/
def matchAt (cs : List Char) : Option ℕ :=
  (matchLitCI ['#', '#'] cs).bind fun r1 =>
  (matchLitCI ['f', 'i', 'n', 'a', 'l'] (dropSpaces r1)).bind fun r2 =>
  (matchLitCI ['s', 'c', 'o', 'r', 'e'] (dropSpaces r2)).bind fun r3 =>
  (matchLitCI [':'] (dropSpaces r3)).bind fun r4 =>
  readDigitWB (dropSpaces r4)

/-- `RegExp.exec`: try the pattern at every start position, left to right,
and return the first captured digit. -/
def findMarker : List Char → Option ℕ
  | [] => none
  | c :: rest =>
    match matchAt (c :: rest) with
    | some d => some d
    | none => findMarker rest

/-- `extractScore(rawText)`: the captured digit of the first regex match,
or `-1` (the PARSE_FAILURE sentinel) when the pattern does not occur. -/
def extractScore (raw : List Char) : ℤ :=
  match findMarker raw with
  | some n => (n : ℤ)
  | none => -1

/-- The ASCII digit character of a grade. -/
def digitChar (g : ℕ) : Char := Char.ofNat (48 + g)

/-- The literal marker text `##final score: g` from the spec's round-trip
property. -/
def markerChars (g : ℕ) : List Char :=
  ['#', '#', 'f', 'i', 'n', 'a', 'l', ' ', 's', 'c', 'o', 'r', 'e', ':', ' ', digitChar g]

-- Dataset Scorer and Evaluation Orchestrator

/-- One call to the judge model: either a response text or a thrown error,
each with the elapsed time the call took. -/
inductive JudgeOutcome where
  | ok : List Char → ℚ → JudgeOutcome
  | err : List Char → ℚ → JudgeOutcome

/-- `SearchResult` as consumed by this core: `title`, `description`, and
optional `url` (`none` models an absent field). -/
structure SearchResult where
  title : List Char
  description : List Char
  url : Option (List Char)

/-- `truncate(s, max)`: `""` when `s` is falsy, `s` itself when within the
bound, else `s.slice(0, max)`. -/
def truncate (s : List Char) (m : ℕ) : List Char :=
  if s = [] then [] else if s.length ≤ m then s else s.take m

/-- JavaScript `String.prototype.trim`: strip `jsSpace` characters from
both ends. -/
def trimChars (s : List Char) : List Char :=
  ((s.dropWhile jsSpace).reverse.dropWhile jsSpace).reverse

/-- `formatPassage(r)`: title (or `"Untitled"` when falsy) truncated to
`MAX_TITLE_CHARS`, description truncated to `MAX_PASSAGE_CHARS`, the URL
block when `r.url` is truthy, assembled by the template
`` `Title: ${title}\n Description: ${desc}\n URL: ${url}` `` and trimmed. -/
def formatPassage (r : SearchResult) : List Char :=
  let title := truncate (if r.title = [] then ("Untitled").data else r.title) MAX_TITLE_CHARS
  let desc := truncate r.description MAX_PASSAGE_CHARS
  let url := match r.url with
    | some u => if u = [] then [] else ('\n' :: ("URL: ").data) ++ u
    | none => []
  trimChars (("Title: ").data ++ title ++ ("\n Description: ").data ++ desc ++
    ("\n URL: ").data ++ url)

/-- `umbrelaPrompt(query, passage)`: the fixed graded-relevance rubric with
the query and passage spliced in. -/
def umbrelaPrompt (query passage : List Char) : List Char :=
  ("Given a query and a passage, you must provide a score on an integer scale of 0 to 3 with the following meanings:\n").data ++
  ("0 = represent that the passage has nothing to do with the query, \n").data ++
  ("1 = represents that the passage seems related to the query but does not answer it, \n").data ++
  ("2 = represents that the passage has some answer for the query, but the answer may be a bit unclear, or hidden amongst extraneous information and \n").data ++
  ("3 = represents that the passage is dedicated to the query and contains the exact answer.\n\n").data ++
  ("Important Instruction: Assign category 1 if the passage is somewhat related to the topic but not completely, category 2 if passage presents something very important related to the entire topic but also has some extra information and category 3 if the passage only and entirely refers to the topic. If none of the above satisfies give it category 0.\n\n").data ++
  ("Query: ").data ++ query ++ ("\n").data ++
  ("Passage: ").data ++ passage ++ ("\n\n").data ++
  ("Split this problem into steps:\n").data ++
  ("Consider the underlying intent of the search.\n").data ++
  ("Measure how well the content matches a likely intent of the query (M).\n").data ++
  ("Measure how trustworthy the passage is (T).\n").data ++
  ("Consider the aspects above and the relative importance of each, and decide on a final score (O). Final score must be an integer value only.\n").data ++
  ("Do not provide any code in result. Provide each score in the format of: ##final score: score without providing any reasoning.\n").data

/-- The result record of `scoreOne`. -/
structure OneResult where
  score : ℤ
  raw : List Char
  durationMs : ℚ

/-- The `"ERR:"` text the catch branch of `scoreOne` prepends to the
stringified error. -/
def errTag : List Char := ("ERR:").data

/-- `scoreOne(query, passage)`: build the prompt, call the judge; on a
throw return score 0 with the `"ERR:"`-tagged raw text; otherwise extract
the score from the response, mapping the `-1` parse failure to 0. -/
def scoreOne (judge : List Char → JudgeOutcome) (query passage : List Char) : OneResult :=
  let prompt := umbrelaPrompt query passage
  match judge prompt with
  | .err e d => { score := 0, raw := errTag ++ e, durationMs := d }
  | .ok t d =>
    let score := extractScore t
    { score := if score = -1 then 0 else score, raw := t, durationMs := d }

/-- One `perDoc` entry: the original rank `index` and the clamped grade. -/
structure PerDocEntry where
  index : ℕ
  score : ℕ
deriving DecidableEq

/-- The grade histogram `counts : Record<0|1|2|3, number>`. -/
structure Counts where
  c0 : ℕ
  c1 : ℕ
  c2 : ℕ
  c3 : ℕ
deriving DecidableEq

/-- `counts[s] = (counts[s] || 0) + 1` for a clamped grade `s`. -/
def bumpCounts (c : Counts) (s : ℕ) : Counts :=
  if s = 0 then { c with c0 := c.c0 + 1 }
  else if s = 1 then { c with c1 := c.c1 + 1 }
  else if s = 2 then { c with c2 := c.c2 + 1 }
  else if s = 3 then { c with c3 := c.c3 + 1 }
  else c

/-- The aggregate returned by `scoreDataset`. -/
structure DatasetScore where
  total : ℕ
  counts : Counts
  errors : ℕ
  durationMs : ℚ
  perDoc : List PerDocEntry

/-- `raw.startsWith("ERR:")`. -/
def rawStartsERR (raw : List Char) : Bool := raw.take 4 == errTag

/-- An ECMAScript LineTerminator, where the regex `m` flag lets `^` match. -/
def isLineTerm (c : Char) : Bool :=
  decide (c.toNat = 10 ∨ c.toNat = 13 ∨ c.toNat = 0x2028 ∨ c.toNat = 0x2029)

/-- Whether the remaining subject starts with `##`. -/
def hashHashAtStart : List Char → Bool
  | c1 :: c2 :: _ => charMatchCI '#' c1 && charMatchCI '#' c2
  | _ => false

/-- Scan for `/^##/m`: `##` at offset 0 or right after a line terminator. -/
def mlHashTestAux : Bool → List Char → Bool
  | _, [] => false
  | atStart, c :: rest =>
    (atStart && hashHashAtStart (c :: rest)) || mlHashTestAux (isLineTerm c) rest

/-- `/^##/m.test(raw)`. -/
def mlHashTest (raw : List Char) : Bool := mlHashTestAux true raw

/-- The clamp `(score < 0 || score > 3) ? 0 : score` applied in the
`scoreDataset` loop, landing in `ℕ`. -/
def clampScore (n : ℤ) : ℕ := if n < 0 ∨ 3 < n then 0 else n.toNat

/-- The `errors` update of one `scoreDataset` iteration, keeping the
source's nested conditionals: the outer test also fires on responses with
no line starting in `##`, but only the `"ERR:"` prefix increments. -/
def errStep (errors : ℕ) (raw : List Char) : ℕ :=
  if rawStartsERR raw || !(mlHashTest raw) then
    (if rawStartsERR raw then errors + 1 else errors)
  else errors

/-- The body of the `for` loop of `scoreDataset`, iterating over the
capped results with their index `i`. -/
def scoreDatasetLoop (judge : List Char → JudgeOutcome) (query : List Char) :
    List SearchResult → ℕ → DatasetScore → DatasetScore
  | [], _, acc => acc
  | r :: rest, i, acc =>
    let passage := truncate (formatPassage r) MAX_PASSAGE_CHARS
    let one := scoreOne judge query passage
    let s := clampScore one.score
    scoreDatasetLoop judge query rest (i + 1)
      { total := acc.total + s
        counts := bumpCounts acc.counts s
        errors := errStep acc.errors one.raw
        durationMs := acc.durationMs + one.durationMs
        perDoc := acc.perDoc ++ [{ index := i, score := s }] }

/-- `scoreDataset(query, results)`: cap the input to `EVAL_DEPTH` items
and run the loop from empty accumulators. -/
def scoreDataset (judge : List Char → JudgeOutcome) (query : List Char)
    (results : List SearchResult) : DatasetScore :=
  scoreDatasetLoop judge query (results.take EVAL_DEPTH) 0
    { total := 0, counts := { c0 := 0, c1 := 0, c2 := 0, c3 := 0 }, errors := 0,
      durationMs := 0, perDoc := [] }

/-- The passage string `scoreDataset` sends to the judge for one result:
the formatted passage re-truncated to `MAX_PASSAGE_CHARS`. -/
def passageSent (r : SearchResult) : List Char :=
  truncate (formatPassage r) MAX_PASSAGE_CHARS

/-- The judge outcome classification, score and raw text of a single
result item as produced inside the `scoreDataset` loop (specification
helper naming the per-item computation). -/
def itemOne (judge : List Char → JudgeOutcome) (query : List Char) (r : SearchResult) :
    OneResult :=
  scoreOne judge query (passageSent r)

/-- The clamped grade recorded for one result item. -/
def itemScore (judge : List Char → JudgeOutcome) (query : List Char) (r : SearchResult) : ℕ :=
  clampScore (itemOne judge query r).score

/-- Whether one result item's raw judge text carries the `"ERR:"` tag. -/
def itemErr (judge : List Char → JudgeOutcome) (query : List Char) (r : SearchResult) : Bool :=
  rawStartsERR (itemOne judge query r).raw

/-- The `perDoc` list the loop produces for the items `l` starting at
index `i` (specification helper used to state the loop's behaviour). -/
def perDocSpec (judge : List Char → JudgeOutcome) (query : List Char) :
    List SearchResult → ℕ → List PerDocEntry
  | [], _ => []
  | r :: rest, i =>
    { index := i, score := itemScore judge query r } :: perDocSpec judge query rest (i + 1)

/-- The metrics record `computeMetrics` returns (the nDCG diagnostics are
commented out in the source). -/
structure MetricsOut where
  nEU : ℚ

/-- `computeMetrics(scores, pooled)`. -/
def computeMetrics (scores : List ℕ) : MetricsOut :=
  { nEU := expectedUtilityOutOf10 scores EU_ALPHA EVAL_DEPTH }

/-- Zero-pad a natural number below 1000 to three digits. -/
def pad3 (m : ℕ) : List Char :=
  (if m < 10 then ('0' :: ['0']) else if m < 100 then ['0'] else []) ++ (Nat.repr m).data

/-- `x.toFixed(3)` modelled over exact rationals: round to the nearest
thousandth (ties away from zero toward the larger integer) and render. -/
def toFixed3 (q : ℚ) : List Char :=
  let n : ℤ := ⌊q * 1000 + 1 / 2⌋
  let m := n.natAbs
  (if n < 0 then ['-'] else []) ++ (Nat.repr (m / 1000)).data ++ ['.'] ++ pad3 (m % 1000)

/-- `makeFeedback(agg, dbIndex, metrics)`: joined summary sentences, with
the score sentence when metrics are present and the error note when at
least one chunk errored. -/
def makeFeedback (agg : DatasetScore) (dbIndex : ℕ) (metrics : Option MetricsOut) :
    List Char :=
  let n := agg.counts.c0 + agg.counts.c1 + agg.counts.c2 + agg.counts.c3
  let parts : List (List Char) :=
    [("DB ").data ++ (Nat.repr dbIndex).data ++ (": ").data ++ (Nat.repr n).data ++
      (" docs scored (top ").data ++ (Nat.repr EVAL_DEPTH).data ++
      ("). Total label sum: ").data ++ (Nat.repr agg.total).data ++ (".").data,
     ("Breakdown — 3★: ").data ++ (Nat.repr agg.counts.c3).data ++ (", 2★: ").data ++
      (Nat.repr agg.counts.c2).data ++ (", 1★: ").data ++ (Nat.repr agg.counts.c1).data ++
      (", 0★: ").data ++ (Nat.repr agg.counts.c0).data ++ (".").data] ++
    (match metrics with
      | some m => [("Score: ").data ++ toFixed3 m.nEU ++ (".").data]
      | none => []) ++
    (if 0 < agg.errors then
      [("Note: ").data ++ (Nat.repr agg.errors).data ++
        (" chunk(s) failed to parse or errored and were counted as 0.").data]
     else [])
  List.intercalate (" ").data parts

/-- One `EvaluationResult` of the report (the optional `metrics` field is
never set by the source). -/
structure EvaluationResult where
  score : ℚ
  feedback : List Char

/-- The full return value of `evaluateSearchResults`. -/
structure EvalOutput where
  db1 : EvaluationResult
  db2 : EvaluationResult
  llmDuration : ℚ

/-- The fallback report returned when no API key is configured. -/
def fallback : EvalOutput :=
  { db1 := { score := -1, feedback := [] }
    db2 := { score := -1, feedback := [] }
    llmDuration := 0 }

/-- The per-rank label sequence `evaluateSearchResults` derives from one
dataset: `perDoc` sorted by index (JavaScript `sort` is stable; the
comparator is `a.index - b.index`), mapped to scores, cut to depth. -/
def rankedScores (d : DatasetScore) : List ℕ :=
  ((d.perDoc.mergeSort fun a b => decide (a.index ≤ b.index)).map PerDocEntry.score).take
    EVAL_DEPTH

/-- `evaluateSearchResults(query, results1, results2)`: fallback without an
API key; otherwise cap both lists, score both datasets, sum durations,
build the per-rank label arrays and the pooled labels, compute metrics and
assemble the report. -/
def evaluateSearchResults (hasApiKey : Bool) (judge : List Char → JudgeOutcome)
    (query : List Char) (results1 results2 : List SearchResult) : EvalOutput :=
  if !hasApiKey then fallback
  else
    let top1 := results1.take EVAL_DEPTH
    let top2 := results2.take EVAL_DEPTH
    let d1 := scoreDataset judge query top1
    let d2 := scoreDataset judge query top2
    let llmDuration := d1.durationMs + d2.durationMs
    let s1 := rankedScores d1
    let s2 := rankedScores d2
    let m1 := computeMetrics s1
    let m2 := computeMetrics s2
    { db1 := { score := m1.nEU, feedback := makeFeedback d1 1 (some m1) }
      db2 := { score := m2.nEU, feedback := makeFeedback d2 2 (some m2) }
      llmDuration := llmDuration }

/-- A default `SearchResult` used with `List.getD` in statements. -/
def noResult : SearchResult := { title := [], description := [], url := none }

/-- Concrete query used by witnesses. -/
def wQuery : List Char := ("vercel pricing").data

/-- Concrete result items used by witnesses. -/
def wResultA : SearchResult :=
  { title := ("A").data, description := ("first doc").data, url := none }

/-- Second concrete result item used by witnesses. -/
def wResultB : SearchResult :=
  { title := ("B").data, description := ("second doc").data, url := none }

/-- A judge stub whose every call throws. -/
def wJudgeErr : List Char → JudgeOutcome := fun _ => .err ("boom").data 0

/-- A judge stub answering well-formed text that carries no score marker. -/
def wJudgeJunk : List Char → JudgeOutcome := fun _ => .ok ("no marker here").data 2

/-- A result whose formatted passage exceeds `MAX_PASSAGE_CHARS`, so the
re-truncation in `scoreDataset` cuts off its URL. -/
def exampleResult : SearchResult :=
  { title := [], description := List.replicate 4000 'a', url := some ['z'] }

-- Helper lemmas about the metric

lemma gain_nonneg (r : ℕ) : 0 ≤ gain r := by
  have h : (1 : ℚ) ≤ 2 ^ r := one_le_pow₀ (by norm_num)
  simp only [gain]
  linarith

lemma gain_mono {a b : ℕ} (h : a ≤ b) : gain a ≤ gain b := by
  simp only [gain]
  have := pow_le_pow_right₀ (a := (2 : ℚ)) (by norm_num) h
  linarith

lemma gain_three : gain 3 = 7 := by norm_num [gain]

lemma gain_le_seven {r : ℕ} (h : r ≤ 3) : gain r ≤ 7 :=
  gain_three ▸ gain_mono h

lemma gain_eq_zero_iff (r : ℕ) : gain r = 0 ↔ r = 0 := by
  constructor
  · intro h
    by_contra hr
    have h1 : 1 ≤ r := Nat.one_le_iff_ne_zero.mpr hr
    have := gain_mono h1
    simp only [gain] at this h
    norm_num at this
    linarith
  · intro h; simp [h, gain]

lemma gain_eq_seven_iff {r : ℕ} (h : r ≤ 3) : gain r = 7 ↔ r = 3 := by
  constructor
  · intro hg
    by_contra hr
    have h2 : r ≤ 2 := by omega
    have := gain_mono h2
    simp only [gain] at this hg
    norm_num at this
    linarith
  · intro h; simp [h, gain]; norm_num

lemma alpha_pow_pos (i : ℕ) : 0 < EU_ALPHA ^ i :=
  pow_pos (by norm_num [EU_ALPHA]) i

lemma denomP_pos : 0 < ∑ i ∈ Finset.range EVAL_DEPTH, EU_ALPHA ^ i :=
  Finset.sum_pos (fun i _ => alpha_pow_pos i) (by simp [EVAL_DEPTH])

lemma euDenom_pos : 0 < euDenom := by
  have h7 : gain 3 = 7 := by norm_num [gain]
  rw [euDenom, h7]
  exact mul_pos denomP_pos (by norm_num)

lemma getD_le_three {scores : List ℕ} (h : ∀ x ∈ scores, x ≤ 3) (i : ℕ) :
    scores.getD i 0 ≤ 3 := by
  rcases Nat.lt_or_ge i scores.length with hi | hi
  · have : scores.getD i 0 ∈ scores := by
      rw [List.getD_eq_getElem scores 0 hi]
      exact List.getElem_mem hi
    exact h _ this
  · rw [List.getD_eq_default scores 0 hi]
    omega

lemma eu_unfold (scores : List ℕ) :
    expectedUtilityOutOf10 scores EU_ALPHA EVAL_DEPTH = euNum scores / euDenom * 10 := by
  have hpos : (0 : ℚ) < (∑ i ∈ Finset.range EVAL_DEPTH, EU_ALPHA ^ i) * gain 3 :=
    euDenom_pos
  simp only [expectedUtilityOutOf10, euNum, euDenom]
  rw [if_pos hpos]

lemma euNum_nonneg (scores : List ℕ) : 0 ≤ euNum scores :=
  Finset.sum_nonneg fun i _ => mul_nonneg (alpha_pow_pos i).le (gain_nonneg _)

lemma euNum_le_euDenom {scores : List ℕ} (h : ∀ x ∈ scores, x ≤ 3) :
    euNum scores ≤ euDenom := by
  rw [euNum, euDenom, gain_three, Finset.sum_mul]
  exact Finset.sum_le_sum fun i _ =>
    mul_le_mul_of_nonneg_left (gain_le_seven (getD_le_three h i)) (alpha_pow_pos i).le

lemma getD_le_set (l : List ℕ) (i b j : ℕ) (hb : l.getD i 0 ≤ b) :
    l.getD j 0 ≤ (l.set i b).getD j 0 := by
  rcases eq_or_ne j i with rfl | hne
  · rcases Nat.lt_or_ge j l.length with hj | hj
    · simp only [List.getD_eq_getElem?_getD]
      rw [List.getElem?_set_self hj]
      simpa using hb
    · rw [List.set_eq_of_length_le hj]
  · rw [List.getD_eq_getElem?_getD, List.getD_eq_getElem?_getD,
      List.getElem?_set_ne hne.symm]

-- Claim theorems about the Expected Utility metric

/-- C1: the Expected Utility computed by `expectedUtilityOutOf10` (at
α = 0.9, L = 10) coincides with the spec's closed formula
`[ Σ α^i · gain(scores[i] or 0) ] / [ (Σ α^i) · gain(3) ] × 10`
for every grade sequence with elements in \x7b0,1,2,3\x7d. -/
theorem eu_matches_spec_formula (scores : List ℕ) (h : ∀ x ∈ scores, x ≤ 3) :
    expectedUtilityOutOf10 scores EU_ALPHA EVAL_DEPTH = euSpecFormula scores := by
  rw [eu_unfold, euSpecFormula, euNum, euDenom]

/-- C1 witness at the concrete grade sequence `[3, 2, 0]`. -/
theorem eu_matches_spec_formula_witness :
    (∀ x ∈ [3, 2, 0], x ≤ 3) ∧
      expectedUtilityOutOf10 [3, 2, 0] EU_ALPHA EVAL_DEPTH = euSpecFormula [3, 2, 0] :=
  ⟨by decide, eu_matches_spec_formula [3, 2, 0] (by decide)⟩

/-- C2 counterexample: `[3]` is a grade sequence of length ≤ 10 in which
every element is 3, yet its Expected Utility is not 10 (short lists are
padded with grade 0, so they cannot reach the maximum). -/
theorem eu_short_all_threes_counterexample :
    (∀ x ∈ [(3 : ℕ)], x = 3) ∧ [(3 : ℕ)].length ≤ 10 ∧
      expectedUtilityOutOf10 [3] EU_ALPHA EVAL_DEPTH ≠ 10 := by
  refine ⟨by decide, by decide, ?_⟩
  norm_num [expectedUtilityOutOf10, Finset.sum_range_succ, gain, EU_ALPHA, EVAL_DEPTH]

/-- C2 (amended): for a grade sequence with elements in \x7b0,1,2,3\x7d the
Expected Utility equals 10 iff every position 0..9 holds an explicit
grade 3 (so the sequence covers all ten evaluated positions); an all-3
sequence of length exactly 10 therefore scores exactly 10, but shorter
all-3 sequences do not. -/
theorem eu_eq_ten_iff (scores : List ℕ) (h : ∀ x ∈ scores, x ≤ 3) :
    expectedUtilityOutOf10 scores EU_ALPHA EVAL_DEPTH = 10 ↔
      ∀ i < EVAL_DEPTH, scores.getD i 0 = 3 := by
  have hiff : ∀ a d : ℚ, d ≠ 0 → (a / d * 10 = 10 ↔ a = d) := by
    intro a d hd
    rw [div_mul_eq_mul_div, div_eq_iff hd]
    constructor
    · intro h'; linarith
    · intro h'; subst h'; ring
  rw [eu_unfold, hiff _ _ (ne_of_gt euDenom_pos), euNum, euDenom, gain_three,
    Finset.sum_mul,
    Finset.sum_eq_sum_iff_of_le (fun i _ =>
      mul_le_mul_of_nonneg_left (gain_le_seven (getD_le_three h i)) (alpha_pow_pos i).le)]
  simp only [Finset.mem_range]
  exact forall_congr' fun i => imp_congr_right fun hi => by
    rw [mul_right_inj' (ne_of_gt (alpha_pow_pos i))]
    exact gain_eq_seven_iff (getD_le_three h i)

/-- C2 witness: the all-3 sequence of length 10 scores exactly 10. -/
theorem eu_eq_ten_iff_witness :
    expectedUtilityOutOf10 (List.replicate 10 3) EU_ALPHA EVAL_DEPTH = 10 :=
  (eu_eq_ten_iff (List.replicate 10 3) (by decide)).mpr (by decide)

/-- C3: for every grade sequence with elements in \x7b0,1,2,3\x7d the
Expected Utility lies in [0, 10], and it is 0 iff every evaluated
position is grade 0 or absent (in particular the empty sequence scores 0). -/
theorem eu_bounds_and_zero_iff (scores : List ℕ) (h : ∀ x ∈ scores, x ≤ 3) :
    0 ≤ expectedUtilityOutOf10 scores EU_ALPHA EVAL_DEPTH ∧
      expectedUtilityOutOf10 scores EU_ALPHA EVAL_DEPTH ≤ 10 ∧
      (expectedUtilityOutOf10 scores EU_ALPHA EVAL_DEPTH = 0 ↔
        ∀ i < EVAL_DEPTH, scores.getD i 0 = 0) := by
  refine ⟨?_, ?_, ?_⟩
  · rw [eu_unfold]
    exact mul_nonneg (div_nonneg (euNum_nonneg _) euDenom_pos.le) (by norm_num)
  · rw [eu_unfold]
    have h1 : euNum scores / euDenom ≤ 1 := (div_le_one euDenom_pos).mpr (euNum_le_euDenom h)
    nlinarith [euNum_nonneg scores, euDenom_pos]
  · rw [eu_unfold]
    constructor
    · intro h0
      have hnum0 : euNum scores = 0 := by
        rcases mul_eq_zero.mp h0 with h1 | h1
        · exact (div_eq_zero_iff.mp h1).resolve_right (ne_of_gt euDenom_pos)
        · norm_num at h1
      have hall := (Finset.sum_eq_zero_iff_of_nonneg (fun i _ =>
        mul_nonneg (alpha_pow_pos i).le (gain_nonneg _))).mp hnum0
      intro i hi
      have hterm := hall i (Finset.mem_range.mpr hi)
      rcases mul_eq_zero.mp hterm with h2 | h2
      · exact absurd h2 (ne_of_gt (alpha_pow_pos i))
      · exact (gain_eq_zero_iff _).mp h2
    · intro hall
      have hnum0 : euNum scores = 0 := Finset.sum_eq_zero fun i hi => by
        rw [(gain_eq_zero_iff _).mpr (hall i (Finset.mem_range.mp hi)), mul_zero]
      rw [hnum0, zero_div, zero_mul]

/-- C3 witness: all bounds at `[0, 2]`, and EU of the empty sequence is 0. -/
theorem eu_bounds_and_zero_iff_witness :
    (0 ≤ expectedUtilityOutOf10 [0, 2] EU_ALPHA EVAL_DEPTH ∧
      expectedUtilityOutOf10 [0, 2] EU_ALPHA EVAL_DEPTH ≤ 10 ∧
      (expectedUtilityOutOf10 [0, 2] EU_ALPHA EVAL_DEPTH = 0 ↔
        ∀ i < EVAL_DEPTH, ([0, 2] : List ℕ).getD i 0 = 0)) ∧
      expectedUtilityOutOf10 [] EU_ALPHA EVAL_DEPTH = 0 :=
  ⟨eu_bounds_and_zero_iff [0, 2] (by decide),
    (eu_bounds_and_zero_iff [] (by simp)).2.2.mpr (by decide)⟩

/-- C4: the Expected Utility is monotonically non-decreasing when a single
grade is replaced by a strictly larger grade in \x7b0,1,2,3\x7d, all other
positions unchanged. -/
theorem eu_monotone_in_grade (scores : List ℕ) (h : ∀ x ∈ scores, x ≤ 3)
    (i b : ℕ) (hb : b ≤ 3) (hlt : scores.getD i 0 < b) :
    expectedUtilityOutOf10 scores EU_ALPHA EVAL_DEPTH ≤
      expectedUtilityOutOf10 (scores.set i b) EU_ALPHA EVAL_DEPTH := by
  rw [eu_unfold, eu_unfold]
  have hnum : euNum scores ≤ euNum (scores.set i b) :=
    Finset.sum_le_sum fun j _ =>
      mul_le_mul_of_nonneg_left (gain_mono (getD_le_set scores i b j hlt.le))
        (alpha_pow_pos j).le
  have hdiv : euNum scores / euDenom ≤ euNum (scores.set i b) / euDenom :=
    (div_le_div_iff_of_pos_right euDenom_pos).mpr hnum
  linarith

/-- C4 witness: raising the single grade of `[0]` to 3 does not decrease EU. -/
theorem eu_monotone_in_grade_witness :
    (∀ x ∈ [(0 : ℕ)], x ≤ 3) ∧
      expectedUtilityOutOf10 [0] EU_ALPHA EVAL_DEPTH ≤
        expectedUtilityOutOf10 ([0].set 0 3) EU_ALPHA EVAL_DEPTH :=
  ⟨by decide, eu_monotone_in_grade [0] (by decide) 0 3 (by decide) (by decide)⟩

-- Helper lemmas about the Score Extractor

lemma lowerNat_eq_hash {c : Char} (h : lowerNat c.toNat = 35) : c = '#' := by
  unfold lowerNat at h
  split at h
  · omega
  · have : Char.ofNat c.toNat = Char.ofNat 35 := by rw [h]
    rwa [Char.ofNat_toNat] at this

lemma matchAt_cons_not_hash {c : Char} (hc : c ≠ '#') (l : List Char) :
    matchAt (c :: l) = none := by
  have hfalse : charMatchCI '#' c = false := by
    simp only [charMatchCI, beq_eq_false_iff_ne, ne_eq]
    intro h
    exact hc (lowerNat_eq_hash h)
  cases l with
  | nil => simp [matchAt, matchLitCI, hfalse]
  | cons d rest => simp [matchAt, matchLitCI, hfalse]

lemma findMarker_append_no_hash {pre : List Char} (hpre : '#' ∉ pre) (l : List Char) :
    findMarker (pre ++ l) = findMarker l := by
  induction pre with
  | nil => simp
  | cons c rest ih =>
    have hc : c ≠ '#' := fun h => hpre (h ▸ List.mem_cons_self c rest)
    have hrest : '#' ∉ rest := fun h => hpre (List.mem_cons_of_mem c h)
    rw [List.cons_append, findMarker, matchAt_cons_not_hash hc, ih hrest]

lemma readDigitWB_le {l : List Char} {d : ℕ} (h : readDigitWB l = some d) : d ≤ 3 := by
  cases l with
  | nil => simp [readDigitWB] at h
  | cons c rest =>
    rw [readDigitWB] at h
    simp only [Option.bind_eq_some] at h
    obtain ⟨d', hc, hif⟩ := h
    have hd' : d' ≤ 3 := by
      unfold digitVal03 at hc
      split at hc
      · cases hc; omega
      · cases hc
    split at hif
    · cases hif; exact hd'
    · cases hif

lemma matchAt_le {cs : List Char} {d : ℕ} (h : matchAt cs = some d) : d ≤ 3 := by
  rw [matchAt] at h
  simp only [Option.bind_eq_some] at h
  obtain ⟨r1, _, r2, _, r3, _, r4, _, hread⟩ := h
  exact readDigitWB_le hread

lemma findMarker_le {raw : List Char} {d : ℕ} (h : findMarker raw = some d) : d ≤ 3 := by
  induction raw with
  | nil => simp [findMarker] at h
  | cons c rest ih =>
    rw [findMarker] at h
    rcases hm : matchAt (c :: rest) with _ | d'
    · rw [hm] at h; exact ih h
    · rw [hm] at h; cases h; exact matchAt_le hm

-- Claim theorems about the Score Extractor

/-- C5 counterexample: the input `"##final score: 1 ##final score: 2"`
contains the exact marker `##final score: 2` (with a clean word boundary
after the digit), yet `extractScore` yields 1, not 2: surrounding text is
not arbitrary, because only the first marker occurrence is read. -/
theorem extractScore_surrounding_text_counterexample :
    extractScore ("##final score: 1 ##final score: 2").data = 1 ∧ (1 : ℤ) ≠ 2 :=
  ⟨by decide, by decide⟩

/-- C5 (amended): `extractScore` round-trips on a marker whose surrounding
text is benign — the prefix contains no `#` (so no earlier match) and the
suffix does not begin with a word character (so the `\b` assertion holds);
text containing no `#` at all yields the PARSE_FAILURE sentinel `-1`; and
every non-failure return value is an integer in \x7b0,1,2,3\x7d. -/
theorem extractScore_round_trip :
    (∀ (g : ℕ), g ≤ 3 → ∀ (pre suf : List Char), '#' ∉ pre →
      wordBoundaryAfter suf = true →
      extractScore (pre ++ markerChars g ++ suf) = g) ∧
    (∀ raw : List Char, '#' ∉ raw → extractScore raw = -1) ∧
    (∀ raw : List Char, extractScore raw = -1 ∨
      (0 ≤ extractScore raw ∧ extractScore raw ≤ 3)) := by
  refine ⟨?_, ?_, ?_⟩
  · intro g hg pre suf hpre hsuf
    rw [List.append_assoc, extractScore, findMarker_append_no_hash hpre]
    have hmatch : matchAt (markerChars g ++ suf) = some g := by
      interval_cases g <;>
        simp [markerChars, digitChar, matchAt, matchLitCI, charMatchCI, lowerNat,
          dropSpaces, jsSpace, readDigitWB, digitVal03, hsuf]
    rw [show markerChars g ++ suf = '#' :: ('#' :: ('f' :: ('i' :: ('n' :: ('a' :: ('l' ::
      (' ' :: ('s' :: ('c' :: ('o' :: ('r' :: ('e' :: (':' :: (' ' ::
      (digitChar g :: suf))))))))))))))) from rfl] at hmatch ⊢
    rw [findMarker, hmatch]
  · intro raw hraw
    have h0 : findMarker (raw ++ []) = findMarker [] := findMarker_append_no_hash hraw []
    rw [List.append_nil] at h0
    rw [extractScore, h0]
    rfl
  · intro raw
    rcases hm : findMarker raw with _ | d
    · exact Or.inl (by rw [extractScore, hm])
    · have he : extractScore raw = (d : ℤ) := by rw [extractScore, hm]
      rw [he]
      exact Or.inr ⟨by exact_mod_cast Nat.zero_le d, by exact_mod_cast findMarker_le hm⟩

/-- C5 witness: round trip at grade 3 with benign surrounding text, and
PARSE_FAILURE on marker-free text. -/
theorem extractScore_round_trip_witness :
    (3 : ℕ) ≤ 3 ∧ '#' ∉ ("judge says ").data ∧
      wordBoundaryAfter (" done").data = true ∧
      extractScore (("judge says ").data ++ markerChars 3 ++ (" done").data) = 3 ∧
      '#' ∉ ("no marker at all").data ∧
      extractScore ("no marker at all").data = -1 :=
  ⟨by decide, by decide, by decide,
    extractScore_round_trip.1 3 (by decide) _ _ (by decide) (by decide),
    by decide, extractScore_round_trip.2.1 _ (by decide)⟩

-- Helper lemmas about the Dataset Scorer loop

lemma clampScore_le_three (n : ℤ) : clampScore n ≤ 3 := by
  rw [clampScore]
  split
  · omega
  · omega

lemma errStep_eq (errors : ℕ) (raw : List Char) :
    errStep errors raw = if rawStartsERR raw then errors + 1 else errors := by
  unfold errStep
  cases h : rawStartsERR raw
  · simp [h]
  · simp [h]

lemma rawStartsERR_errTag (e : List Char) : rawStartsERR (errTag ++ e) = true := by
  rw [rawStartsERR, show (4 : ℕ) = errTag.length from rfl, List.take_left]
  simp

lemma scoreDatasetLoop_perDoc (j : List Char → JudgeOutcome) (q : List Char) :
    ∀ (l : List SearchResult) (i : ℕ) (acc : DatasetScore),
      (scoreDatasetLoop j q l i acc).perDoc = acc.perDoc ++ perDocSpec j q l i := by
  intro l
  induction l with
  | nil => intro i acc; simp [scoreDatasetLoop, perDocSpec]
  | cons r rest ih =>
    intro i acc
    rw [scoreDatasetLoop, perDocSpec, ih]
    simp [itemScore, itemOne, passageSent]

lemma scoreDatasetLoop_errors (j : List Char → JudgeOutcome) (q : List Char) :
    ∀ (l : List SearchResult) (i : ℕ) (acc : DatasetScore),
      (scoreDatasetLoop j q l i acc).errors =
        acc.errors + l.countP (fun r => itemErr j q r) := by
  intro l
  induction l with
  | nil => intro i acc; simp [scoreDatasetLoop]
  | cons r rest ih =>
    intro i acc
    rw [scoreDatasetLoop, ih]
    simp only [errStep_eq, List.countP_cons]
    have hraw : rawStartsERR (scoreOne j q (truncate (formatPassage r) MAX_PASSAGE_CHARS)).raw
        = itemErr j q r := rfl
    rw [hraw]
    cases h : itemErr j q r <;> simp [h] <;> omega

lemma scoreDataset_perDoc (j : List Char → JudgeOutcome) (q : List Char)
    (results : List SearchResult) :
    (scoreDataset j q results).perDoc = perDocSpec j q (results.take EVAL_DEPTH) 0 := by
  rw [scoreDataset, scoreDatasetLoop_perDoc]
  simp

lemma scoreDataset_errors (j : List Char → JudgeOutcome) (q : List Char)
    (results : List SearchResult) :
    (scoreDataset j q results).errors =
      (results.take EVAL_DEPTH).countP (fun r => itemErr j q r) := by
  rw [scoreDataset, scoreDatasetLoop_errors]
  simp

lemma perDocSpec_length (j : List Char → JudgeOutcome) (q : List Char) :
    ∀ (l : List SearchResult) (i : ℕ), (perDocSpec j q l i).length = l.length := by
  intro l
  induction l with
  | nil => intro i; simp [perDocSpec]
  | cons r rest ih => intro i; simp [perDocSpec, ih]

lemma perDocSpec_getD (j : List Char → JudgeOutcome) (q : List Char) :
    ∀ (l : List SearchResult) (i k : ℕ), k < l.length →
      (perDocSpec j q l i).getD k ⟨0, 0⟩ =
        { index := i + k, score := itemScore j q (l.getD k noResult) } := by
  intro l
  induction l with
  | nil => intro i k hk; simp at hk
  | cons r rest ih =>
    intro i k hk
    cases k with
    | zero => simp [perDocSpec]
    | succ k' =>
      rw [perDocSpec, List.getD_cons_succ, List.getD_cons_succ,
        ih (i + 1) k' (by simpa using Nat.lt_of_succ_lt_succ hk),
        show i + 1 + k' = i + (k' + 1) by omega]

-- Claim theorems about the Dataset Scorer

/-- C6: `scoreDataset` only ever judges the first `EVAL_DEPTH` (= 10) items
(its result only depends on that cap), the `perDoc` list has length
`min (length results) EVAL_DEPTH`, and entry `k` carries original index
`k`, so entries are in original ranking order. -/
theorem scoreDataset_caps_and_orders (j : List Char → JudgeOutcome) (q : List Char)
    (results : List SearchResult) :
    scoreDataset j q results = scoreDataset j q (results.take EVAL_DEPTH) ∧
    (scoreDataset j q results).perDoc.length = min results.length EVAL_DEPTH ∧
    (∀ k, k < (scoreDataset j q results).perDoc.length →
      ((scoreDataset j q results).perDoc.getD k ⟨0, 0⟩).index = k) := by
  refine ⟨?_, ?_, ?_⟩
  · rw [scoreDataset, scoreDataset, List.take_take, min_self]
  · rw [scoreDataset_perDoc, perDocSpec_length, List.length_take]
    omega
  · intro k hk
    rw [scoreDataset_perDoc] at hk ⊢
    rw [perDocSpec_length] at hk
    rw [perDocSpec_getD j q _ 0 k hk]
    simp

/-- C6 witness: with two items and a junk judge, entry 0 carries index 0. -/
theorem scoreDataset_caps_and_orders_witness :
    0 < (scoreDataset wJudgeJunk wQuery [wResultA, wResultB]).perDoc.length ∧
      ((scoreDataset wJudgeJunk wQuery [wResultA, wResultB]).perDoc.getD 0 ⟨0, 0⟩).index
        = 0 :=
  ⟨by decide,
    (scoreDataset_caps_and_orders wJudgeJunk wQuery [wResultA, wResultB]).2.2 0 (by decide)⟩

/-- C8: a judge call that throws on item `k` is isolated to that item: its
recorded grade is 0 and its raw text carries the error tag; the error
counter equals the count of error-tagged items (so this failure adds
exactly 1); and every item of the capped dataset — the later ones included
— still gets its own judged entry: no short-circuit. -/
theorem scoreDataset_error_isolated (j : List Char → JudgeOutcome) (q : List Char)
    (results : List SearchResult) (k : ℕ) (e : List Char) (d : ℚ)
    (hk : k < (results.take EVAL_DEPTH).length)
    (hjudge : j (umbrelaPrompt q (passageSent ((results.take EVAL_DEPTH).getD k noResult)))
      = JudgeOutcome.err e d) :
    ((scoreDataset j q results).perDoc.getD k ⟨0, 0⟩).score = 0 ∧
    itemErr j q ((results.take EVAL_DEPTH).getD k noResult) = true ∧
    (scoreDataset j q results).errors =
      (results.take EVAL_DEPTH).countP (fun r => itemErr j q r) ∧
    (scoreDataset j q results).perDoc.length = (results.take EVAL_DEPTH).length ∧
    (∀ m, m < (results.take EVAL_DEPTH).length →
      (scoreDataset j q results).perDoc.getD m ⟨0, 0⟩ =
        { index := m, score := itemScore j q ((results.take EVAL_DEPTH).getD m noResult) }) := by
  have hone : itemOne j q ((results.take EVAL_DEPTH).getD k noResult) =
      { score := 0, raw := errTag ++ e, durationMs := d } := by
    rw [itemOne, scoreOne, hjudge]
  refine ⟨?_, ?_, scoreDataset_errors j q results, ?_, ?_⟩
  · rw [scoreDataset_perDoc, perDocSpec_getD j q _ 0 k hk]
    show itemScore j q ((results.take EVAL_DEPTH).getD k noResult) = 0
    rw [itemScore, hone]
    show clampScore 0 = 0
    decide
  · rw [itemErr, hone]
    exact rawStartsERR_errTag e
  · rw [scoreDataset_perDoc, perDocSpec_length]
  · intro m hm
    rw [scoreDataset_perDoc, perDocSpec_getD j q _ 0 m hm]
    simp

/-- C8 witness: a judge stub that always throws, two items: item 0 has
grade 0 and the error tally counts the error-tagged items. -/
theorem scoreDataset_error_isolated_witness :
    ((scoreDataset wJudgeErr wQuery [wResultA, wResultB]).perDoc.getD 0 ⟨0, 0⟩).score = 0 ∧
      (scoreDataset wJudgeErr wQuery [wResultA, wResultB]).errors =
        ([wResultA, wResultB].take EVAL_DEPTH).countP
          (fun r => itemErr wJudgeErr wQuery r) :=
  ⟨(scoreDataset_error_isolated wJudgeErr wQuery [wResultA, wResultB] 0 ("boom").data 0
      (by decide) rfl).1,
    (scoreDataset_error_isolated wJudgeErr wQuery [wResultA, wResultB] 0 ("boom").data 0
      (by decide) rfl).2.2.1⟩

/-- C9: the error tally counts exactly the items whose raw judge text
carries the `"ERR:"` failure tag; a successful judge call returning
well-formed text without that tag is never counted as an error, and when
its text does not parse to a grade the item is silently scored 0. -/
theorem scoreDataset_error_asymmetry (j : List Char → JudgeOutcome) (q : List Char)
    (results : List SearchResult) :
    (scoreDataset j q results).errors =
      (results.take EVAL_DEPTH).countP (fun r => itemErr j q r) ∧
    (∀ (r : SearchResult) (t : List Char) (d : ℚ),
      j (umbrelaPrompt q (passageSent r)) = JudgeOutcome.ok t d →
      rawStartsERR t = false →
      itemErr j q r = false ∧ (extractScore t = -1 → itemScore j q r = 0)) := by
  refine ⟨scoreDataset_errors j q results, ?_⟩
  intro r t d hj ht
  have hone : itemOne j q r =
      { score := if extractScore t = -1 then 0 else extractScore t, raw := t,
        durationMs := d } := by
    rw [itemOne, scoreOne, hj]
  constructor
  · rw [itemErr, hone]
    exact ht
  · intro hp
    rw [itemScore, hone]
    simp [hp, clampScore]

/-- C9 witness: a judge answering parseable-free junk text is scored 0
without counting as an error. -/
theorem scoreDataset_error_asymmetry_witness :
    itemErr wJudgeJunk wQuery wResultA = false ∧
      (extractScore ("no marker here").data = -1 →
        itemScore wJudgeJunk wQuery wResultA = 0) :=
  (scoreDataset_error_asymmetry wJudgeJunk wQuery [wResultA]).2 wResultA
    ("no marker here").data 2 rfl (by decide)

-- C10 helpers

lemma truncate_length_le (s : List Char) (m : ℕ) : (truncate s m).length ≤ m := by
  rw [truncate]
  split
  · simp
  · split
    · next h => exact h
    · simp [List.length_take]

lemma dropWhile_cons_false {p : Char → Bool} {a : Char} (h : p a = false) (l : List Char) :
    (a :: l).dropWhile p = a :: l := by
  rw [List.dropWhile_cons, h]
  simp

lemma trimChars_self (l : List Char) (h1 : l.dropWhile jsSpace = l)
    (h2 : l.reverse.dropWhile jsSpace = l.reverse) : trimChars l = l := by
  rw [trimChars, h1, h2, List.reverse_reverse]

lemma replicate_4000_ne_nil : List.replicate 4000 'a' ≠ [] := by
  intro h
  have hl := congrArg List.length h
  rw [List.length_replicate, List.length_nil] at hl
  exact absurd hl (by norm_num)

lemma formatPassage_example :
    formatPassage exampleResult =
      ("Title: Untitled\n Description: ").data ++
        (List.replicate 4000 'a' ++ ("\n URL: \nURL: z").data) := by
  have hdesc : truncate (List.replicate 4000 'a') MAX_PASSAGE_CHARS =
      List.replicate 4000 'a' := by
    rw [truncate, if_neg replicate_4000_ne_nil,
      if_pos (by rw [List.length_replicate]; norm_num [MAX_PASSAGE_CHARS])]
  have htitle : truncate (("Untitled")).data MAX_TITLE_CHARS = ("Untitled").data := by
    decide
  have hcollect : ("Title: ").data ++ ("Untitled").data ++ ("\n Description: ").data ++
      List.replicate 4000 'a' ++ ("\n URL: ").data ++ (('\n' :: ("URL: ").data) ++ ['z']) =
      ("Title: Untitled\n Description: ").data ++
        (List.replicate 4000 'a' ++ ("\n URL: \nURL: z").data) := by
    rw [show (("Title: Untitled\n Description: ").data : List Char) =
      ("Title: ").data ++ ("Untitled").data ++ ("\n Description: ").data from by decide]
    rw [show (("\n URL: \nURL: z").data : List Char) =
      ("\n URL: ").data ++ (('\n' :: ("URL: ").data) ++ ['z']) from by decide]
    simp only [List.append_assoc]
  have hbig : formatPassage exampleResult =
      trimChars (("Title: ").data ++ truncate (("Untitled").data) MAX_TITLE_CHARS ++
        ("\n Description: ").data ++ truncate (List.replicate 4000 'a') MAX_PASSAGE_CHARS ++
        ("\n URL: ").data ++ (('\n' :: ("URL: ").data) ++ ['z'])) := rfl
  rw [hbig, htitle, hdesc, hcollect]
  refine trimChars_self _ (dropWhile_cons_false (by decide) _) ?_
  rw [List.reverse_append, List.reverse_append,
    show (("\n URL: \nURL: z").data : List Char).reverse = ("z :LRU\n :LRU \n").data
      from by decide]
  exact dropWhile_cons_false (by decide) _

lemma passageSent_example :
    passageSent exampleResult =
      ("Title: Untitled\n Description: ").data ++ List.replicate 3970 'a' := by
  rw [passageSent, formatPassage_example]
  have hlenA : (("Title: Untitled\n Description: ").data : List Char).length = 30 := by
    decide
  have hlenB : (("\n URL: \nURL: z").data : List Char).length = 14 := by decide
  have hlenBig : ((("Title: Untitled\n Description: ").data : List Char) ++
      (List.replicate 4000 'a' ++ ("\n URL: \nURL: z").data)).length = 4044 := by
    rw [List.length_append, List.length_append, List.length_replicate, hlenA, hlenB]
  rw [truncate, if_neg (by
      intro h
      rw [h, List.length_nil] at hlenBig
      exact absurd hlenBig (by norm_num)),
    if_neg (by
      intro hle
      rw [hlenBig] at hle
      norm_num [MAX_PASSAGE_CHARS] at hle)]
  rw [List.take_append_eq_append_take, hlenA,
    List.take_of_length_le (by rw [hlenA]; norm_num [MAX_PASSAGE_CHARS])]
  rw [List.take_append_eq_append_take, List.length_replicate]
  norm_num [MAX_PASSAGE_CHARS]


-- Claim theorem about passage truncation

/-- C10: the passage actually sent to the judge is the formatted passage
re-truncated to `MAX_PASSAGE_CHARS`, so it never exceeds 4000 characters;
and this re-truncation can cut off the appended URL (and part of the
description): for the concrete `exampleResult`, the URL character `z`
occurs in the formatted passage but not in the passage sent. -/
theorem passageSent_bounded_and_cuts_url :
    (∀ r : SearchResult, (passageSent r).length ≤ MAX_PASSAGE_CHARS) ∧
    exampleResult.url = some ['z'] ∧
    'z' ∈ formatPassage exampleResult ∧
    'z' ∉ passageSent exampleResult := by
  refine ⟨fun r => truncate_length_le _ _, rfl, ?_, ?_⟩
  · rw [formatPassage_example]
    exact List.mem_append.mpr (Or.inr (List.mem_append.mpr (Or.inr (by decide))))
  · rw [passageSent_example]
    intro hmem
    rcases List.mem_append.mp hmem with h | h
    · revert h
      decide
    · rw [List.mem_replicate] at h
      exact absurd h.2 (by decide)

-- Helper lemmas about the Evaluation Orchestrator

lemma eu_nonneg (scores : List ℕ) :
    0 ≤ expectedUtilityOutOf10 scores EU_ALPHA EVAL_DEPTH := by
  rw [eu_unfold]
  exact mul_nonneg (div_nonneg (euNum_nonneg _) euDenom_pos.le) (by norm_num)

lemma eu_le_ten {scores : List ℕ} (h : ∀ x ∈ scores, x ≤ 3) :
    expectedUtilityOutOf10 scores EU_ALPHA EVAL_DEPTH ≤ 10 := by
  rw [eu_unfold]
  have h1 : euNum scores / euDenom ≤ 1 := (div_le_one euDenom_pos).mpr (euNum_le_euDenom h)
  nlinarith [euNum_nonneg scores, euDenom_pos]

lemma perDocSpec_score_le (j : List Char → JudgeOutcome) (q : List Char) :
    ∀ (l : List SearchResult) (i : ℕ) (en : PerDocEntry),
      en ∈ perDocSpec j q l i → en.score ≤ 3 := by
  intro l
  induction l with
  | nil => intro i en h; simp [perDocSpec] at h
  | cons r rest ih =>
    intro i en h
    rw [perDocSpec] at h
    rcases List.mem_cons.mp h with rfl | h2
    · exact clampScore_le_three _
    · exact ih (i + 1) en h2

lemma rankedScores_le_three (j : List Char → JudgeOutcome) (q : List Char)
    (rs : List SearchResult) :
    ∀ x ∈ rankedScores (scoreDataset j q rs), x ≤ 3 := by
  intro x hx
  rw [rankedScores] at hx
  have hx1 := List.take_subset _ _ hx
  obtain ⟨en, hen, rfl⟩ := List.mem_map.mp hx1
  have hen2 : en ∈ (scoreDataset j q rs).perDoc := List.mem_mergeSort.mp hen
  rw [scoreDataset_perDoc] at hen2
  exact perDocSpec_score_le j q _ 0 en hen2

-- Claim theorem about the Evaluation Orchestrator

set_option maxHeartbeats 2000000 in
/-- C7: without an API key, `evaluateSearchResults` short-circuits to the
fallback report — both scores are exactly −1, both feedback strings are
empty, the overall duration is 0, and the result does not depend on the
judge at all (no judge call is made); with a key, every computed score
lies in [0, 10], so −1 is distinguishable from any real score. -/
theorem evaluate_fallback_and_sentinel (jdg jdg2 : List Char → JudgeOutcome)
    (q : List Char) (results1 results2 : List SearchResult) :
    (evaluateSearchResults false jdg q results1 results2).db1.score = -1 ∧
    (evaluateSearchResults false jdg q results1 results2).db2.score = -1 ∧
    (evaluateSearchResults false jdg q results1 results2).db1.feedback = [] ∧
    (evaluateSearchResults false jdg q results1 results2).db2.feedback = [] ∧
    (evaluateSearchResults false jdg q results1 results2).llmDuration = 0 ∧
    evaluateSearchResults false jdg q results1 results2 =
      evaluateSearchResults false jdg2 q results1 results2 ∧
    (0 ≤ (evaluateSearchResults true jdg q results1 results2).db1.score ∧
      (evaluateSearchResults true jdg q results1 results2).db1.score ≤ 10) ∧
    (0 ≤ (evaluateSearchResults true jdg q results1 results2).db2.score ∧
      (evaluateSearchResults true jdg q results1 results2).db2.score ≤ 10) := by
  have hfb : evaluateSearchResults false jdg q results1 results2 = fallback := rfl
  have hfb2 : evaluateSearchResults false jdg2 q results1 results2 = fallback := rfl
  have hs1 : (evaluateSearchResults true jdg q results1 results2).db1.score =
      expectedUtilityOutOf10
        (rankedScores (scoreDataset jdg q (results1.take EVAL_DEPTH)))
        EU_ALPHA EVAL_DEPTH := rfl
  have hs2 : (evaluateSearchResults true jdg q results1 results2).db2.score =
      expectedUtilityOutOf10
        (rankedScores (scoreDataset jdg q (results2.take EVAL_DEPTH)))
        EU_ALPHA EVAL_DEPTH := rfl
  refine ⟨by rw [hfb]; rfl, by rw [hfb]; rfl, by rw [hfb]; rfl, by rw [hfb]; rfl,
    by rw [hfb]; rfl, hfb.trans hfb2.symm, ⟨?_, ?_⟩, ⟨?_, ?_⟩⟩
  · rw [hs1]; exact eu_nonneg _
  · rw [hs1]; exact eu_le_ten (rankedScores_le_three jdg q _)
  · rw [hs2]; exact eu_nonneg _
  · rw [hs2]; exact eu_le_ten (rankedScores_le_three jdg q _)
